import Mathlib

/-!
Verification of the NEMS correlation-metric module (`nems/metrics/corrcoef.py`).

Shallow embedding conventions:
* a time sample is `Option ℚ`: `some q` is a finite float value, `none` is a
  non-finite placeholder (NaN/inf), matching `np.isfinite`;
* a signal's continuous view (`as_continuous`) is `List (List (Option ℚ))`
  (channels × time); a raster (`extract_epoch`) is
  `List (List (List (Option ℚ)))` (repeats × channels × time);
* a correlation value is `Option ℝ`: `none` models the NaN that
  `np.corrcoef` produces for empty or zero-variance inputs, and NaN
  propagation through `np.mean`, `+`, comparisons is modelled explicitly;
* Python exceptions are `Except NpErr`;
* the process-wide RNG is an explicit parameter: the pair permutation
  `sidx` drawn by `np.argsort(np.random.rand(paircount))` in `_r_single`,
  and the per-trial index streams `draws` drawn by
  `(np.random.rand(n)*len).astype(int)` in `r_floor`.
-/

/-- A single channel's time series, with `none` marking non-finite samples. -/
abbrev Chan : Type := List (Option ℚ)

/-- A continuous signal view: channels × time (`Signal.as_continuous`). -/
abbrev Sig : Type := List Chan

/-- A raster: repeats × channels × time (`Signal.extract_epoch`). -/
abbrev Raster : Type := List (List Chan)

/-- Python exceptions raised by this module: `ValueError("multi-channel...")`,
`ValueError("2 repeats condition not supported yet.")`, `ZeroDivisionError`,
and numpy's `IndexError` on a mismatched boolean mask. -/
inductive NpErr : Type
  | shape : NpErr
  | unsupported : NpErr
  | divByZero : NpErr
  | index : NpErr
deriving DecidableEq

/-- Embedding of `ff = np.isfinite(X1) & np.isfinite(X2); X1 = X1[ff];
X2 = X2[ff]`: keep the value pairs at which both samples are finite. -/
def keepFinite : Option ℚ × Option ℚ → Option (ℚ × ℚ)
  | (some x, some y) => some (x, y)
  | _ => none

/-- The joint finite-mask applied to two channels, as value lists. -/
def maskPair (a b : Chan) : List ℚ × List ℚ :=
  ((List.zip a b).filterMap keepFinite).unzip

/-- Arithmetic mean of a rational list (`np.mean`); `0` on `[]` (unused there). -/
def qmean (l : List ℚ) : ℚ := l.sum / l.length

/-- Deviations from the mean. -/
def devs (l : List ℚ) : List ℚ := l.map fun x => x - qmean l

/-- Sum of squared deviations (unnormalised variance; the `1/(n-1)`
normalisation of `np.cov` cancels inside the correlation quotient). -/
def svar (l : List ℚ) : ℚ := ((devs l).map fun x => x * x).sum

/-- Sum of products of deviations (unnormalised covariance). -/
def scov (a b : List ℚ) : ℚ := (List.zipWith (· * ·) (devs a) (devs b)).sum

/-- Embedding of `np.corrcoef(a, b)[0, 1]` on two equal-length finite vectors:
NaN (`none`) when either vector is empty, a singleton or constant
(zero variance, a `0/0` in numpy), otherwise the Pearson coefficient
`scov / sqrt(svar a * svar b)`. -/
noncomputable def pearson (a b : List ℚ) : Option ℝ :=
  if svar a = 0 ∨ svar b = 0 then none
  else some ((scov a b : ℝ) / Real.sqrt ((svar a * svar b : ℚ) : ℝ))

/-- Number of `True` entries of the broadcast finite-mask
`np.isfinite(pred) & np.isfinite(resp)` when `pred` has one row. -/
def ffCount (prow : Chan) (resp : Sig) : ℕ :=
  (resp.map fun rrow =>
    (List.zipWith (fun x y => x.isSome && y.isSome) prow rrow).count true).sum

/-- Embedding of `corrcoef(result, pred_name, resp_name)` (the raw-agreement metric),
after the two `as_continuous()` extractions: raise on a multi-channel
prediction; return `0` when the joint finite-mask is empty; otherwise index
by the mask (numpy raises `IndexError` if the broadcast mask's shape does not
match `pred`'s, i.e. when `resp` is multi-channel) and return the Pearson
coefficient of the masked single channels. -/
noncomputable def corrcoef (pred resp : Sig) : Except NpErr (Option ℝ) :=
  if 1 < pred.length then .error .shape
  else
    if ffCount (pred.getD 0 []) resp = 0 then .ok (some 0)
    else if resp.length ≠ pred.length then .error .index
    else .ok (pearson (maskPair (pred.getD 0 []) (resp.getD 0 [])).1
      (maskPair (pred.getD 0 []) (resp.getD 0 [])).2)

/-- Ascending `np.sort` on the finite shuffle correlations. -/
noncomputable def sortR (l : List ℝ) : List ℝ := l.insertionSort (· ≤ ·)

/-- Embedding of `r_floor` (the `corr coef floor based on shuffled responses`), with the RNG
made explicit: `draws rr` is the pair of random index streams whose first
`n` values model `(np.random.rand(n) * len).astype(int)` for trial `rr`.
After the prediction-channel check, jointly non-finite positions are
removed, `n` is `500` or the valid length (whichever is smaller), `1000`
shuffled correlations are computed, the non-finite ones dropped, the rest
sorted ascending and the entry at rank `int(len * 0.95)` returned
(`0` when every shuffle produced NaN). -/
noncomputable def r_floor (pred resp : Sig) (draws : ℕ → (ℕ → ℕ) × (ℕ → ℕ)) :
    Except NpErr ℝ :=
  if 1 < pred.length then .error .shape
  else
    let m := maskPair (pred.getD 0 []) (resp.getD 0 [])
    let n := if 500 < m.1.length then 500 else m.1.length
    let rf := ((List.range 1000).map fun rr =>
      pearson ((List.range n).map fun j => m.1.getD ((draws rr).1 j) 0)
        ((List.range n).map fun j => m.2.getD ((draws rr).2 j) 0)).filterMap id
    if rf = [] then .ok 0
    else .ok ((sortR rf).getD (19 * rf.length / 20) 0)

/-- Embedding of `X.shape[1]`: the channel count of a raster. -/
def shape1 (X : Raster) : ℕ := (X.getD 0 []).length

/-- Embedding of `X[i, 0, :]`: channel 0 of repeat `i`. -/
def row (X : Raster) (i : ℕ) : Chan := (X.getD i []).getD 0 []

/-- The nested loop building `pairs`: all `(p1, p2)` with
`p1 < p2 < repcount`, ordered by `p1` then `p2`. -/
def pairsList (r : ℕ) : List (ℕ × ℕ) :=
  (List.range r).flatMap fun p1 =>
    (List.range' (p1 + 1) (r - (p1 + 1))).map fun p2 => (p1, p2)

/-- The reduction `if paircount < N: N = paircount` applied to the cap `N`. -/
def pairN (reps N : ℕ) : ℕ :=
  if reps.choose 2 < N then reps.choose 2 else N

/-- Embedding of `np.mean` over values that may be NaN: NaN (`none`) when the list is
empty or contains a NaN, otherwise the arithmetic mean. -/
noncomputable def meanO (l : List (Option ℝ)) : Option ℝ :=
  if l = [] then none
  else if l.all fun o => o.isSome then some ((l.filterMap id).sum / l.length)
  else none

/-- Embedding of `rac = np.mean(rac); if rac < 0.05: rac = 0.05` — the floor clamp.
NaN fails the `<` comparison, so NaN passes through unclamped. -/
noncomputable def clamp05 (m : Option ℝ) : Option ℝ :=
  match m with
  | none => none
  | some v => if v < 0.05 then some 0.05 else some v

/-- The sampled pairwise correlations of `_r_single`: for
`nn < pairN repcount N`, correlate the two repeats of pair
`pairs[sidx[nn]]` after joint finite-masking. -/
noncomputable def racList (X : Raster) (N : ℕ) (sidx : ℕ → ℕ) :
    List (Option ℝ) :=
  (List.range (pairN X.length N)).map fun nn =>
    let pr := (pairsList X.length).getD (sidx nn) (0, 0)
    let m := maskPair (row X pr.1) (row X pr.2)
    pearson m.1 m.2

/-- Embedding of `_r_single(X, N)` (single-trial reliability), with the random pair
permutation `sidx = np.argsort(np.random.rand(paircount))` explicit:
reject multi-channel rasters; return `0` for fewer than 2 repeats; raise
for the reduced single-pair case (`N == 1` after reduction); otherwise
average `N` sampled pairwise repeat correlations and clamp at `0.05`
(a NaN mean passes through as NaN). -/
noncomputable def r_single (X : Raster) (N : ℕ) (sidx : ℕ → ℕ) :
    Except NpErr (Option ℝ) :=
  if 1 < shape1 X then .error .shape
  else if X.length ≤ 1 then .ok (some 0)
  else if pairN X.length N = 1 then .error .unsupported
  else .ok (clamp05 (meanO (racList X N sidx)))

/-- Embedding of `np.sum(np.isfinite(d))`: finite samples anywhere in a folded array. -/
def finiteCount (d : Raster) : ℕ :=
  (d.map fun occ => (occ.map fun ch => ch.countP fun o => o.isSome).sum).sum

/-- The per-repeat prediction correlations of `r_ceiling`: each repeat
`X[nn, 0, :]` against the first occurrence `d[0, 0, :]` of the folded
prediction, each pair finite-masked independently. -/
noncomputable def rsList (d X : Raster) : List (Option ℝ) :=
  (List.range X.length).map fun nn =>
    let m := maskPair (row X nn) (row d 0)
    pearson m.1 m.2

/-- Embedding of `X1.shape[-1]` after the repeat loop: the masked length of the last
repeat-prediction pair. -/
def lastCnt (d X : Raster) : ℕ :=
  (maskPair (row X (X.length - 1)) (row d 0)).1.length

/-- NaN-propagating float addition for the `rnorm_c` accumulator. -/
noncomputable def addO (a b : Option ℝ) : Option ℝ :=
  match a, b with
  | some x, some y => some (x + y)
  | _, _ => none

/-- One iteration of the `r_ceiling` epoch loop over the accumulator
`(touched, rnorm_c, n)`, where `touched` records that `rnorm_c += ...`
has executed at least once (turning the Python `int` `0` into a float).
An epoch whose folded prediction `d` has a finite sample gets its raster
reliability; when that is `> 0` (NaN fails the comparison), the mean
per-repeat prediction correlation `rs` contributes
`(rs / sqrt(rac)) * X1.shape[-1]` to `rnorm_c` and `X1.shape[-1]` to `n`.
An error from `_r_single` aborts the whole call. -/
noncomputable def epochStep (N : ℕ) (sidx : ℕ → ℕ) :
    Except NpErr (Bool × Option ℝ × ℕ) → Raster × Raster →
    Except NpErr (Bool × Option ℝ × ℕ)
  | .error e, _ => .error e
  | .ok (t, w, n), (d, X) =>
    if 0 < finiteCount d then
      match r_single X N sidx with
      | .error e => .error e
      | .ok none => .ok (t, w, n)
      | .ok (some c) =>
        if 0 < c then
          .ok (true,
            addO w ((meanO (rsList d X)).map fun r =>
              r / Real.sqrt c * (lastCnt d X : ℝ)),
            n + lastCnt d X)
        else .ok (t, w, n)
    else .ok (t, w, n)

/-- The full epoch loop of `r_ceiling`, starting from
`rnorm_c = 0; n = 0` (both Python ints, so `touched = false`). -/
noncomputable def foldEpochs (items : List (Raster × Raster)) (N : ℕ)
    (sidx : ℕ → ℕ) : Except NpErr (Bool × Option ℝ × ℕ) :=
  items.foldl (epochStep N sidx) (.ok (false, some 0, 0))

/-- Embedding of `r_ceiling(result, fullrec, ...)` after the collaborator calls
(`epoch_names_matching`, `extract_epochs`, `rasterize`, `extract_epoch`)
have produced, in order, the matching `(folded prediction, response
raster)` pairs `items`. The final step is `rnorm_c / n`: when `n = 0`
this is Python integer `0 / 0` — a `ZeroDivisionError` — unless some
epoch entered the accumulation branch, in which case `rnorm_c` is a numpy
float and float division by zero yields a non-finite value (NaN/inf)
instead of raising. -/
noncomputable def r_ceiling (items : List (Raster × Raster)) (N : ℕ)
    (sidx : ℕ → ℕ) : Except NpErr (Option ℝ) :=
  match foldEpochs items N sidx with
  | .error e => .error e
  | .ok (t, w, n) =>
    if n = 0 then
      if t then .ok none else .error .divByZero
    else .ok (w.map fun x => x / (n : ℝ))

/-! ### Concrete inputs used by witnesses and counterexamples -/

/-- A 3-repeat, 1-channel raster whose repeats are all `[0, 2]`. -/
def XW : Raster := [[[some 0, some 2]], [[some 0, some 2]], [[some 0, some 2]]]

/-- A folded prediction with one occurrence, values `[0, 2]`. -/
def dW : Raster := [[[some 0, some 2]]]

/-- A folded prediction agreeing with `dW` on its first occurrence but
holding a second, partly non-finite occurrence. -/
def dW2 : Raster := [[[some 0, some 2]], [[some 5, none]]]

/-- A 3-repeat, 1-channel raster whose repeats are all constant. -/
def X3c : Raster := [[[some 1, some 1]], [[some 1, some 1]], [[some 1, some 1]]]

/-- A 2-repeat, 1-channel raster. -/
def X2r : Raster := [[[some 1]], [[some 2]]]

/-- A 0-repeat raster. -/
def X0 : Raster := []

/-- A folded prediction finite exactly where `XC7`'s repeats are not. -/
def dC7 : Raster := [[[some 1, some 2, none, none]]]

/-- A 3-repeat raster, mutually correlated on its finite tail but sharing no
finite position with `dC7`. -/
def XC7 : Raster :=
  [[[none, none, some 0, some 2]], [[none, none, some 0, some 2]],
   [[none, none, some 0, some 2]]]

/-! ### General helper lemmas -/

/-- Swapping a sample pair before filtering swaps the kept value pair. -/
theorem keepFinite_swap (p : Option ℚ × Option ℚ) :
    keepFinite p.swap = (keepFinite p).map Prod.swap := by
  rcases p with ⟨x, y⟩
  cases x <;> cases y <;> rfl

/-- The broadcast mask count over a single response channel is the length of
the jointly-finite masked pair. -/
theorem ffCount_singleton (a b : Chan) :
    ffCount a [b] = (maskPair a b).1.length := by
  induction a generalizing b with
  | nil => simp [ffCount, maskPair]
  | cons x as ih =>
    cases b with
    | nil => simp [ffCount, maskPair]
    | cons y bs =>
      have h := ih bs
      simp only [ffCount, List.map_cons, List.map_nil, List.sum_cons,
        List.sum_nil, Nat.add_zero] at h
      cases x <;> cases y <;>
        simp [ffCount, maskPair, keepFinite, List.count_cons,
          List.zip_cons_cons, List.filterMap_cons] at h ⊢ <;>
        omega

/-- The two components of a masked pair have equal length. -/
theorem maskPair_length (a b : Chan) :
    (maskPair a b).1.length = (maskPair a b).2.length := by
  rw [maskPair, List.unzip_eq_map]
  simp

/-- Swapping the arguments of the joint finite-mask swaps the components. -/
theorem maskPair_swap (a b : Chan) :
    maskPair b a = ((maskPair a b).2, (maskPair a b).1) := by
  have hz : (List.zip b a).filterMap keepFinite =
      ((List.zip a b).filterMap keepFinite).map Prod.swap := by
    rw [← List.zip_swap, List.filterMap_map, List.map_filterMap]
    refine List.filterMap_congr fun p _ => ?_
    exact congrArg _ rfl |>.trans (keepFinite_swap p)
  rw [maskPair, maskPair, hz, List.unzip_eq_map, List.unzip_eq_map]
  simp

/-- Unnormalised covariance is symmetric. -/
theorem scov_comm (a b : List ℚ) : scov a b = scov b a := by
  rw [scov, scov, List.zipWith_comm_of_comm]
  exact fun x y => mul_comm x y

/-- The Pearson coefficient is symmetric in its two vectors. -/
theorem pearson_symm (a b : List ℚ) : pearson a b = pearson b a := by
  rw [pearson, pearson]
  by_cases h : svar a = 0 ∨ svar b = 0
  · rw [if_pos h, if_pos (Or.symm h)]
  · rw [if_neg h, if_neg fun hc => h (Or.symm hc), scov_comm,
      mul_comm (svar a) (svar b)]

/-! ### Evaluation lemmas for the concrete inputs -/

/-- Evaluation: the Pearson coefficient of `[0, 2]` with itself is `1`. -/
theorem pearson_02 : pearson [(0 : ℚ), 2] [0, 2] = some 1 := by
  have h1 : svar [(0 : ℚ), 2] = 2 := by norm_num [svar, devs, qmean]
  have h2 : scov [(0 : ℚ), 2] [0, 2] = 2 := by norm_num [scov, devs, qmean]
  have h4 : Real.sqrt 4 = 2 := by
    rw [show (4 : ℝ) = 2 ^ 2 by norm_num, Real.sqrt_sq (by norm_num : (0:ℝ) ≤ 2)]
  rw [pearson, if_neg (by rw [h1]; norm_num)]
  rw [h1, h2]
  norm_num [h4]

/-- Evaluation: the Pearson coefficient of two empty vectors is NaN. -/
theorem pearson_nil : pearson [] [] = none := by
  rw [pearson, if_pos (Or.inl (show svar ([] : List ℚ) = 0 from rfl))]

/-- Evaluation: the Pearson coefficient of a constant vector is NaN. -/
theorem pearson_const : pearson [(1 : ℚ), 1] [1, 1] = none := by
  rw [pearson, if_pos (Or.inl (by norm_num [svar, devs, qmean]))]

/-- Evaluation: the NaN-aware mean of three ones is one. -/
theorem meanO_ones3 : meanO [some (1 : ℝ), some 1, some 1] = some 1 := by
  rw [meanO, if_neg (by simp), if_pos (by simp)]
  simp
  norm_num

/-- Evaluation: the NaN-aware mean of three NaNs is NaN. -/
theorem meanO_nones3 : meanO [(none : Option ℝ), none, none] = none := by
  rw [meanO, if_neg (by simp), if_neg (by simp)]

/-- Evaluation: single-trial reliability of `XW` is `1`. -/
theorem r_single_XW : r_single XW 100 id = .ok (some 1) := by
  have h : racList XW 100 id = [some 1, some 1, some 1] := by
    rw [show racList XW 100 id =
      [pearson [0, 2] [0, 2], pearson [0, 2] [0, 2], pearson [0, 2] [0, 2]]
      from rfl, pearson_02]
  rw [r_single, if_neg (by decide), if_neg (by decide), if_neg (by decide),
    h, meanO_ones3]
  rw [show clamp05 (some 1) = if (1:ℝ) < 0.05 then some 0.05 else some 1
    from rfl, if_neg (by norm_num)]

/-- Evaluation: single-trial reliability of `XC7` is also `1` (its repeats
agree on their shared finite tail `[0, 2]`). -/
theorem r_single_XC7 : r_single XC7 100 id = .ok (some 1) := by
  have h : racList XC7 100 id = [some 1, some 1, some 1] := by
    rw [show racList XC7 100 id =
      [pearson [0, 2] [0, 2], pearson [0, 2] [0, 2], pearson [0, 2] [0, 2]]
      from rfl, pearson_02]
  rw [r_single, if_neg (by decide), if_neg (by decide), if_neg (by decide),
    h, meanO_ones3]
  rw [show clamp05 (some 1) = if (1:ℝ) < 0.05 then some 0.05 else some 1
    from rfl, if_neg (by norm_num)]

/-- Evaluation: the epoch `(dW, XW)` contributes `(1 / sqrt 1) * 2 = 2` with
weight `2`, and marks the accumulator as float-touched. -/
theorem foldEpochs_W : foldEpochs [(dW, XW)] 100 id = .ok (true, some 2, 2) := by
  have hrs : rsList dW XW = [some 1, some 1, some 1] := by
    rw [show rsList dW XW =
      [pearson [0, 2] [0, 2], pearson [0, 2] [0, 2], pearson [0, 2] [0, 2]]
      from rfl, pearson_02]
  have hcnt : lastCnt dW XW = 2 := rfl
  simp only [foldEpochs, List.foldl_cons, List.foldl_nil, epochStep,
    if_pos (show 0 < finiteCount dW by decide), r_single_XW]
  rw [if_pos (show (0:ℝ) < 1 by norm_num), hrs, meanO_ones3, hcnt]
  norm_num [addO, Real.sqrt_one]

/-- Evaluation: the epoch `(dC7, XC7)` passes the finiteness and
reliability gates, yet contributes a NaN with weight `0`: every
repeat-prediction pair has an empty joint finite-mask. -/
theorem foldEpochs_C7 : foldEpochs [(dC7, XC7)] 100 id = .ok (true, none, 0) := by
  have hrs : rsList dC7 XC7 = [none, none, none] := by
    rw [show rsList dC7 XC7 = [pearson [] [], pearson [] [], pearson [] []]
      from rfl, pearson_nil]
  have hcnt : lastCnt dC7 XC7 = 0 := rfl
  simp only [foldEpochs, List.foldl_cons, List.foldl_nil, epochStep,
    if_pos (show 0 < finiteCount dC7 by decide), r_single_XC7]
  rw [if_pos (show (0:ℝ) < 1 by norm_num), hrs, meanO_nones3, hcnt]
  rfl

/-- On single-channel signals, `corrcoef` is the masked Pearson coefficient
with a zero fallback for an empty joint mask. -/
theorem corrcoefSingle_eq (a b : Chan) :
    corrcoef [a] [b] =
      if (maskPair a b).1 = [] then .ok (some 0)
      else .ok (pearson (maskPair a b).1 (maskPair a b).2) := by
  rw [corrcoef, if_neg (by simp)]
  simp only [List.getD_cons_zero]
  by_cases h : (maskPair a b).1 = []
  · rw [if_pos (by rw [ffCount_singleton, h]; rfl), if_pos h]
  · have hne : ffCount a [b] ≠ 0 := by
      rw [ffCount_singleton]
      exact fun h0 => h (List.length_eq_zero.mp h0)
    rw [if_neg hne, if_neg (by simp), if_neg h]

/-- The percentile index `int(count * 0.95)` equals the rational floor of
`0.95 * count`. -/
theorem floor95 (k : ℕ) : Nat.floor ((0.95 : ℚ) * k) = 19 * k / 20 := by
  have h1 : (0.95 : ℚ) * k = ((19 * k : ℕ) : ℚ) / ((20 : ℕ) : ℚ) := by
    push_cast
    ring
  rw [h1, Nat.floor_div_nat, Nat.floor_natCast]

/-! ### Claim theorems -/

/-- C6: for equal-length single-channel sequences with no position at which
both are finite (empty joint mask), `corrcoef` returns exactly `0` as a
defined fallback; otherwise it returns the off-diagonal Pearson coefficient
of the finite-masked subsequences. Proved for all lengths. -/
theorem corrcoef_finite_overlap_pearson (a b : Chan) :
    corrcoef [a] [b] =
      if (maskPair a b).1 = [] then .ok (some 0)
      else .ok (pearson (maskPair a b).1 (maskPair a b).2) :=
  corrcoefSingle_eq a b

/-- C8: `corrcoef` (pairwise correlation) is symmetric on equal-length
single-channel sequences. -/
theorem corrcoef_symmetric (a b : Chan) (_hlen : a.length = b.length) :
    corrcoef [a] [b] = corrcoef [b] [a] := by
  rw [corrcoefSingle_eq a b, corrcoefSingle_eq b a, maskPair_swap a b]
  by_cases hm : (maskPair a b).1 = []
  · have hm2 : (maskPair a b).2 = [] :=
      List.length_eq_zero.mp (maskPair_length a b ▸ congrArg List.length hm)
    rw [if_pos hm, if_pos hm2]
  · have hm2 : (maskPair a b).2 ≠ [] := fun h2 =>
      hm (List.length_eq_zero.mp ((maskPair_length a b).trans
        (congrArg List.length h2)))
    rw [if_neg hm, if_neg hm2, pearson_symm]

/-- Witness for C8 at concrete equal-length sequences. -/
theorem corrcoef_symmetric_check :
    ([some 1, some 2, none] : Chan).length = ([some 2, none, some 1] : Chan).length ∧
    corrcoef [[some 1, some 2, none]] [[some 2, none, some 1]] =
      corrcoef [[some 2, none, some 1]] [[some 1, some 2, none]] :=
  ⟨rfl, corrcoef_symmetric [some 1, some 2, none] [some 2, none, some 1] rfl⟩

/-- C5 counterexample: a multi-channel response with a single-channel,
all-non-finite prediction makes `corrcoef` return `0` — no `ShapeError`
is raised, contradicting the claim that either signal being multi-channel
raises one. (With finite prediction samples the same shapes raise numpy's
`IndexError`, still not a `ShapeError`.) -/
theorem corrcoef_multichannel_resp_returns_zero :
    corrcoef [[none]] [[some 1], [some 1]] = .ok (some 0) := rfl

/-- C5 amended: `corrcoef` raises `ShapeError` exactly when the prediction
signal has more than one channel; a multi-channel response alone never
produces a `ShapeError`. -/
theorem corrcoef_shape_error_iff_pred_multichannel (pred resp : Sig) :
    corrcoef pred resp = .error .shape ↔ 1 < pred.length := by
  rw [corrcoef]
  by_cases h : 1 < pred.length
  · rw [if_pos h]
    simp [h]
  · rw [if_neg h]
    constructor
    · intro hc
      exfalso
      split at hc
      · exact absurd hc (by simp)
      · split at hc
        · exact absurd hc (by simp)
        · exact absurd hc (by simp)
    · intro hl
      exact absurd hl h

/-- C4: on a single-channel raster with exactly 2 repeats and any positive
pair cap, `_r_single` raises the explicit unsupported-configuration error
instead of returning a value. -/
theorem r_single_two_repeats_unsupported (X : Raster) (N : ℕ) (sidx : ℕ → ℕ)
    (h1 : shape1 X ≤ 1) (h2 : X.length = 2) (h3 : 1 ≤ N) :
    r_single X N sidx = .error .unsupported := by
  have hp : pairN X.length N = 1 := by
    rw [pairN, h2, show (2 : ℕ).choose 2 = 1 from by decide]
    split <;> omega
  rw [r_single, if_neg (by omega), if_neg (by omega), if_pos hp]

/-- Witness for C4 at a concrete 2-repeat raster with the default cap. -/
theorem r_single_two_repeats_unsupported_check :
    shape1 X2r ≤ 1 ∧ X2r.length = 2 ∧ 1 ≤ 100 ∧
    r_single X2r 100 id = .error .unsupported :=
  ⟨by decide, by decide, by decide,
    r_single_two_repeats_unsupported X2r 100 id (by decide) (by decide)
      (by decide)⟩

/-- C9: on a single-channel raster, `_r_single` raises the unsupported error
exactly when the reduced pair count `min N (repeats choose 2)` equals 1;
in particular a caller-supplied `N = 1` triggers it for every raster with
at least 2 repeats. -/
theorem r_single_unsupported_iff_min_one (X : Raster) (N : ℕ) (sidx : ℕ → ℕ)
    (h : shape1 X ≤ 1) :
    r_single X N sidx = .error .unsupported ↔ min N (X.length.choose 2) = 1 := by
  rw [r_single, if_neg (by omega)]
  by_cases h2 : X.length ≤ 1
  · rw [if_pos h2]
    have h0 : X.length.choose 2 = 0 := Nat.choose_eq_zero_of_lt (by omega)
    constructor
    · intro hc
      exact absurd hc (by simp)
    · intro hm
      rw [h0] at hm
      omega
  · rw [if_neg h2]
    have hmin : pairN X.length N = min N (X.length.choose 2) := by
      rw [pairN]
      split <;> omega
    by_cases h3 : pairN X.length N = 1
    · rw [if_pos h3, ← hmin]
      simp [h3]
    · rw [if_neg h3]
      constructor
      · intro hc
        exact absurd hc (by simp)
      · intro hm
        exact absurd (hmin.trans hm) h3

/-- Witness for C9: `N = 1` on the 3-repeat raster `XW` raises the error. -/
theorem r_single_unsupported_iff_min_one_check :
    shape1 XW ≤ 1 ∧ min 1 (XW.length.choose 2) = 1 ∧
    r_single XW 1 id = .error .unsupported :=
  ⟨by decide, by decide,
    (r_single_unsupported_iff_min_one XW 1 id (by decide)).mpr (by decide)⟩

/-- C2 counterexample: a single-channel raster with 3 repeats whose repeats
are constant makes every sampled pairwise correlation NaN, so `_r_single`
returns NaN (`none`) — not a value `≥ 0.05` as claimed. In the Python code
`np.mean` of the NaN array is NaN, `NaN < 0.05` is false, and NaN is
returned unclamped. -/
theorem r_single_three_repeats_nan : r_single X3c 100 id = .ok none := by
  have h : racList X3c 100 id = [none, none, none] := by
    rw [show racList X3c 100 id =
      [pearson [1, 1] [1, 1], pearson [1, 1] [1, 1], pearson [1, 1] [1, 1]]
      from rfl, pearson_const]
  rw [r_single, if_neg (by decide), if_neg (by decide), if_neg (by decide),
    h, meanO_nones3]
  rfl

/-- C2 amended: on a single-channel raster, `_r_single` returns exactly `0`
for at most 1 repeat; for at least 3 repeats (and a cap other than 1, as
with the default `N = 100`), it returns either NaN — when a sampled pairwise
correlation is undefined — or a value clamped to at least `0.05`. -/
theorem r_single_zero_and_clamped_bounds (X : Raster) (N : ℕ) (sidx : ℕ → ℕ) :
    (shape1 X ≤ 1 → X.length ≤ 1 → r_single X N sidx = .ok (some 0)) ∧
    (shape1 X ≤ 1 → 3 ≤ X.length → N ≠ 1 →
      ∃ r, r_single X N sidx = .ok r ∧
        (r = none ∨ ∃ v : ℝ, r = some v ∧ (0.05 : ℝ) ≤ v)) := by
  constructor
  · intro h1 h2
    rw [r_single, if_neg (by omega), if_pos h2]
  · intro h1 h3 hN
    have hpc : 3 ≤ X.length.choose 2 := by
      calc 3 = (3 : ℕ).choose 2 := by decide
      _ ≤ X.length.choose 2 := Nat.choose_le_choose 2 h3
    have hn : pairN X.length N ≠ 1 := by
      rw [pairN]
      split
      · omega
      · exact hN
    rw [r_single, if_neg (by omega), if_neg (by omega), if_neg hn]
    rcases meanO (racList X N sidx) with _ | m
    · exact ⟨none, rfl, Or.inl rfl⟩
    · by_cases hv : m < 0.05
      · refine ⟨some 0.05, ?_, Or.inr ⟨0.05, rfl, le_refl _⟩⟩
        rw [show clamp05 (some m) = if m < 0.05 then some 0.05 else some m
          from rfl, if_pos hv]
      · refine ⟨some m, ?_, Or.inr ⟨m, rfl, le_of_not_lt hv⟩⟩
        rw [show clamp05 (some m) = if m < 0.05 then some 0.05 else some m
          from rfl, if_neg hv]

/-- Witness for C2 (amended): the empty raster returns `0`; the 3-repeat
raster `XW` with the default cap returns a defined value at least `0.05`. -/
theorem r_single_zero_and_clamped_bounds_check :
    (shape1 X0 ≤ 1 ∧ X0.length ≤ 1 ∧ r_single X0 100 id = .ok (some 0)) ∧
    (shape1 XW ≤ 1 ∧ 3 ≤ XW.length ∧ (100 : ℕ) ≠ 1 ∧
      ∃ r, r_single XW 100 id = .ok r ∧
        (r = none ∨ ∃ v : ℝ, r = some v ∧ (0.05 : ℝ) ≤ v)) :=
  ⟨⟨by decide, by decide,
      (r_single_zero_and_clamped_bounds X0 100 id).1 (by decide) (by decide)⟩,
    ⟨by decide, by decide, by decide,
      (r_single_zero_and_clamped_bounds XW 100 id).2 (by decide) (by decide)
        (by decide)⟩⟩

/-- C3: `r_floor` removes jointly non-finite positions, uses shuffle sample
size `n = min 500 (length of the valid data)`, performs exactly 1000
resampling trials, discards non-finite results, sorts the rest ascending and
returns the entry at index `floor(0.95 * count)`, or `0` when every trial
was non-finite. Additionally, `sortR` really sorts ascending (a permutation
of its input, sorted by `≤`). -/
theorem r_floor_characterisation (pred resp : Sig)
    (draws : ℕ → (ℕ → ℕ) × (ℕ → ℕ)) :
    (r_floor pred resp draws =
      if 1 < pred.length then .error .shape
      else
        let m := maskPair (pred.getD 0 []) (resp.getD 0 [])
        let n := min 500 m.1.length
        let rf := ((List.range 1000).map fun rr =>
          pearson ((List.range n).map fun j => m.1.getD ((draws rr).1 j) 0)
            ((List.range n).map fun j => m.2.getD ((draws rr).2 j) 0)).filterMap id
        if rf = [] then .ok 0
        else .ok ((sortR rf).getD (Nat.floor ((0.95 : ℚ) * rf.length)) 0)) ∧
    ∀ l : List ℝ, (sortR l).Sorted (· ≤ ·) ∧ List.Perm (sortR l) l := by
  constructor
  · have hmin : ∀ L : ℕ, (if 500 < L then (500 : ℕ) else L) = min 500 L := by
      intro L
      split <;> omega
    simp only [r_floor, hmin, floor95]
  · intro l
    exact ⟨List.sorted_insertionSort _ l, List.perm_insertionSort _ l⟩

/-- C1: for an epoch whose folded prediction has at least one finite sample
and whose raster reliability is a defined value `c > 0`, the `r_ceiling`
loop adds `(rs / sqrt rac) * sample_count` to the weighted sum and
`sample_count` to the total, where `rs` is the NaN-aware mean of the
per-repeat prediction correlations and `sample_count` is the joint
finite-sample count of the last repeat-prediction pair; and whenever the
loop finishes with a positive total, the final result is the weighted sum
divided by the total. -/
theorem r_ceiling_weighted_accumulation (N : ℕ) (sidx : ℕ → ℕ) (t : Bool)
    (w : Option ℝ) (n : ℕ) (d X : Raster) (c : ℝ)
    (hfin : 0 < finiteCount d)
    (hrac : r_single X N sidx = .ok (some c)) (hc : 0 < c) :
    epochStep N sidx (.ok (t, w, n)) (d, X) =
      .ok (true,
        addO w ((meanO (rsList d X)).map fun r =>
          r / Real.sqrt c * (lastCnt d X : ℝ)),
        n + lastCnt d X) ∧
    ∀ (items : List (Raster × Raster)) (t' : Bool) (w' : Option ℝ) (n' : ℕ),
      foldEpochs items N sidx = .ok (t', w', n') → 0 < n' →
      r_ceiling items N sidx = .ok (w'.map fun x => x / (n' : ℝ)) := by
  constructor
  · simp only [epochStep, if_pos hfin, hrac]
    rw [if_pos hc]
  · intro items t' w' n' hfold hn
    simp only [r_ceiling, hfold]
    rw [if_neg (by omega)]

/-- Witness for C1 at the concrete epoch `(dW, XW)`: reliability `1`,
per-repeat correlations all `1`, last-pair sample count `2`, contribution
`2`, and final result `2 / 2`. -/
theorem r_ceiling_weighted_accumulation_check :
    0 < finiteCount dW ∧ r_single XW 100 id = .ok (some 1) ∧ (0 : ℝ) < 1 ∧
    epochStep 100 id (.ok (false, some 0, 0)) (dW, XW) =
      .ok (true,
        addO (some 0) ((meanO (rsList dW XW)).map fun r =>
          r / Real.sqrt 1 * (lastCnt dW XW : ℝ)),
        0 + lastCnt dW XW) ∧
    foldEpochs [(dW, XW)] 100 id = .ok (true, some 2, 2) ∧ (0 : ℕ) < 2 ∧
    r_ceiling [(dW, XW)] 100 id = .ok ((some (2 : ℝ)).map fun x => x / ((2 : ℕ) : ℝ)) :=
  ⟨by decide, r_single_XW, by norm_num,
    (r_ceiling_weighted_accumulation 100 id false (some 0) 0 dW XW 1
      (by decide) r_single_XW (by norm_num)).1,
    foldEpochs_W, by norm_num,
    (r_ceiling_weighted_accumulation 100 id false (some 0) 0 dW XW 1
      (by decide) r_single_XW (by norm_num)).2 [(dW, XW)] true (some 2) 2
      foldEpochs_W (by norm_num)⟩

/-- C7 counterexample: the epoch `(dC7, XC7)` has a finite folded prediction,
reliability `1 > 0`, and enters the accumulation branch, but every
repeat-prediction pair shares no finite position, so `total_samples`
stays `0` while `rnorm_c` becomes the numpy float NaN; the final
`rnorm_c / n` is then numpy float division by zero, which yields NaN
(non-finite) instead of raising a `ZeroDivisionError` — contradicting the
claim that `total_samples == 0` always faults. -/
theorem r_ceiling_zero_total_samples_nan :
    r_ceiling [(dC7, XC7)] 100 id = .ok none := by
  simp only [r_ceiling, foldEpochs_C7]
  rfl

/-- C7 amended: when the loop ends with `total_samples = 0` and the
accumulator was never touched (it is still the Python integer `0`), the
final step raises an unhandled `ZeroDivisionError` that propagates to the
caller; if some epoch entered the accumulation branch with zero sample
count, the accumulator is a numpy float and the division instead yields a
non-finite value. -/
theorem r_ceiling_no_samples_behaviour (items : List (Raster × Raster))
    (N : ℕ) (sidx : ℕ → ℕ) (w : Option ℝ) (n : ℕ) :
    (foldEpochs items N sidx = .ok (false, w, n) → n = 0 →
      r_ceiling items N sidx = .error .divByZero) ∧
    (foldEpochs items N sidx = .ok (true, w, n) → n = 0 →
      r_ceiling items N sidx = .ok none) := by
  constructor <;> intro hf h0 <;> subst h0 <;> simp only [r_ceiling, hf] <;> rfl

/-- Witness for C7 (amended): the empty epoch list faults; the epoch
`(dC7, XC7)` reaches the accumulator with zero samples and yields NaN. -/
theorem r_ceiling_no_samples_behaviour_check :
    foldEpochs [] 100 id = .ok (false, some 0, 0) ∧
    r_ceiling [] 100 id = .error .divByZero ∧
    foldEpochs [(dC7, XC7)] 100 id = .ok (true, none, 0) ∧
    r_ceiling [(dC7, XC7)] 100 id = .ok none :=
  ⟨rfl,
    (r_ceiling_no_samples_behaviour [] 100 id (some 0) 0).1 rfl rfl,
    foldEpochs_C7,
    (r_ceiling_no_samples_behaviour [(dC7, XC7)] 100 id none 0).2
      foldEpochs_C7 rfl⟩

/-- C10: for a matching epoch, the `r_ceiling` per-repeat correlations use
only the first occurrence `d[0, 0, :]` of the folded prediction: two folded
predictions agreeing on that slice (and both passing the finiteness gate)
produce identical epoch-loop steps, whatever their further occurrences
hold. -/
theorem r_ceiling_uses_first_occurrence (N : ℕ) (sidx : ℕ → ℕ)
    (acc : Except NpErr (Bool × Option ℝ × ℕ)) (d d' X : Raster)
    (h0 : row d 0 = row d' 0) (h1 : 0 < finiteCount d)
    (h2 : 0 < finiteCount d') :
    epochStep N sidx acc (d, X) = epochStep N sidx acc (d', X) := by
  have hrs : rsList d X = rsList d' X := by
    simp only [rsList, h0]
  have hcnt : lastCnt d X = lastCnt d' X := by
    simp only [lastCnt, h0]
  cases acc with
  | error e => rfl
  | ok st =>
    obtain ⟨t, w, n⟩ := st
    simp only [epochStep, if_pos h1, if_pos h2, hrs, hcnt]

/-- Witness for C10: `dW` and `dW2` share their first occurrence but differ
in a second, partly non-finite one; the epoch step cannot tell them apart. -/
theorem r_ceiling_uses_first_occurrence_check :
    row dW 0 = row dW2 0 ∧ 0 < finiteCount dW ∧ 0 < finiteCount dW2 ∧
    epochStep 100 id (.ok (false, some 0, 0)) (dW, XW) =
      epochStep 100 id (.ok (false, some 0, 0)) (dW2, XW) :=
  ⟨rfl, by decide, by decide,
    r_ceiling_uses_first_occurrence 100 id (.ok (false, some 0, 0)) dW dW2 XW
      rfl (by decide) (by decide)⟩
